import Mathlib

/-!
Shallow embedding of the file-naming and routing engine of
`form_submission.js` (Google Forms auto-sort and notify script).

JavaScript strings are modelled as Lean `String` (a wrapper around
`List Char`); the negative-index conventions of `String.prototype.slice`,
`String.prototype.substring` and `lastIndexOf` are reproduced exactly,
with `-1` denoting "not found".  JavaScript objects used as string maps
are modelled as association lists (`List (String × String)`) with
`List.lookup`; the object spread `{...base, ...overrides}` becomes a
lookup that tries `overrides` first.
-/

namespace FormScript

/-! ## JavaScript string primitives -/

/-- Does `pat` occur in `s` starting at position `i`?
(Mirrors the substring test underlying `String.prototype.lastIndexOf`.) -/
def occursAt (s pat : List Char) (i : Nat) : Bool :=
  (s.drop i).take pat.length == pat

/-- JavaScript `s.lastIndexOf(pat)`: index of the last occurrence of `pat`
in `s`, or `-1` when there is none. -/
def lastIndexOfStr (s pat : List Char) : Int :=
  match ((List.range (s.length + 1)).filter (fun i => occursAt s pat i)).getLast? with
  | some i => (i : Int)
  | none => -1

/-- JavaScript `s.slice(i)` for a possibly negative `i`:
a negative index counts from the end (clamped at 0). -/
def jsSlice (s : List Char) (i : Int) : List Char :=
  if i < 0 then s.drop (max ((s.length : Int) + i) 0).toNat
  else s.drop (min i.toNat s.length)

/-- JavaScript `s.substring(0, j)` for a possibly negative `j`:
a negative end index is clamped to 0 (yielding the empty string). -/
def jsSubstring0 (s : List Char) (j : Int) : List Char :=
  s.take (max j 0).toNat

/-- JavaScript `s.trim()`: strip whitespace from both ends. -/
def jsTrim (s : String) : String :=
  ⟨((s.data.dropWhile (fun c => c.isWhitespace)).reverse.dropWhile
      (fun c => c.isWhitespace)).reverse⟩

/-- Line 213: `const extension = originalName.slice(originalName.lastIndexOf('.'))`. -/
def fileExtension (originalName : String) : String :=
  ⟨jsSlice originalName.data (lastIndexOfStr originalName.data ['.'])⟩

/-! ## Sanitization (lines 221 and 236): `replace(/[\\/:"*?<>|]/g, '-')` -/

/-- The nine characters deemed illegal in a file name. -/
def isIllegalChar (c : Char) : Bool :=
  ['\\', '/', ':', '"', '*', '?', '<', '>', '|'].contains c

/-- Replace every illegal character by a dash. -/
def sanitize (s : String) : String :=
  ⟨s.data.map (fun c => if isIllegalChar c then '-' else c)⟩

/-! ## Template engine (lines 181-189): `buildFromTemplate` -/

/-- Split a character list at its first `\x7d` (closing brace):
returns the part strictly before it and the part strictly after it,
or `none` when no closing brace occurs. -/
def splitAtClose : List Char → Option (List Char × List Char)
  | [] => none
  | c :: cs =>
    if c = '}' then some ([], cs)
    else
      match splitAtClose cs with
      | some (inner, rest) => some (c :: inner, rest)
      | none => none

set_option linter.unusedVariables false

theorem splitAtClose_length {cs inner rest : List Char}
    (h : splitAtClose cs = some (inner, rest)) :
    rest.length < cs.length := by
  induction cs generalizing inner rest with
  | nil => simp [splitAtClose] at h
  | cons c cs ih =>
    by_cases hc : c = '}'
    · simp [splitAtClose, hc] at h
      simp [← h.2]
    · simp only [splitAtClose, if_neg hc] at h
      cases hsp : splitAtClose cs with
      | none => rw [hsp] at h; simp at h
      | some p =>
        rw [hsp] at h
        cases p with
        | mk inn rst =>
          simp at h
          have := ih (show splitAtClose cs = some (inn, rst) by rw [hsp])
          simp [← h.2]
          omega

/-- The global-replace scan of `template.replace(/\{([^}]+)\}/g, ...)`:
at each `\x7b` whose matching `\x7d` exists and encloses at least one
character, the enclosed text is looked up and the replacement spliced in
verbatim (never re-scanned); everything else is copied unchanged. -/
def substPlaceholders (lookup : String → Option String) : List Char → List Char
  | [] => []
  | c :: cs =>
    if c = '{' then
      match hsp : splitAtClose cs with
      | some (inner, rest) =>
        if inner = [] then c :: substPlaceholders lookup cs
        else ((lookup ⟨inner⟩).getD "N/A").data ++ substPlaceholders lookup rest
      | none => c :: substPlaceholders lookup cs
    else c :: substPlaceholders lookup cs
  termination_by l => l.length
  decreasing_by
    all_goals simp
    all_goals exact Nat.lt_succ_of_lt (splitAtClose_length hsp)

/-- Lines 181-189: `buildFromTemplate(template, responseMap, additionalPlaceholders)`.
`allPlaceholders = {...responseMap, ...additionalPlaceholders}`, so the
additional placeholders win on key collision; an unknown key yields `N/A`. -/
def buildFromTemplate (template : String) (responseMap : List (String × String))
    (additionalPlaceholders : List (String × String) := []) : String :=
  ⟨substPlaceholders
    (fun k => (additionalPlaceholders.lookup k).orElse (fun _ => responseMap.lookup k))
    template.data⟩

/-! ## Script configuration (lines 11-67): the fields used by the claims -/

def EMAIL_SUBJECT_TEMPLATE : String :=
  "Purchase Order Submission: \x7bFunding Source\x7d - \x7bVendor\x7d - \x7bLast Name\x7d"

def FILE_NAME_TEMPLATE : String :=
  "\x7bFunding Source\x7d - \x7bVendor\x7d - \x7bLast Name\x7d - \x7bQuestionTitle\x7d"

def FILE_NAME_PREFIX_TEMPLATE : String :=
  "\x7bFunding Source\x7d - \x7bVendor\x7d - \x7bLast Name\x7d"

def SPECIAL_NAMING_QUESTION_TITLE : String :=
  "Supporting Docs (SDS, Justification, etc)"

def EXCLUDE_FROM_FOLDER_NAME : List String := [
  "First Name",
  "Do you know the funding code or name of the fund?",
  "Is this purchase supporting a Capstone Project, Honors Research Project, or Student Independent Research Project?",
  "If you answered anything but no, please give the sponsoring dept, project, and Student name",
  "Description of the items being ordered and a justification for the order (e.g. resistors and sensors for use in EW309 coursework)",
  "Does this order require an ITPRA/ITPR or RFR (Radio Frequency Review)?",
  "Does this order contain any hazardous materials (HAZMAT)? Examples include glue, paint, solvents, etc.  (If so, provide SDS sheet)",
  "Total purchase price"
]

def EXCLUDE_FROM_EMAIL_BODY : List String := [
  "One or Two keywords word describing the items being ordered (this is used for folder naming and text in email subject lines)",
  "Do you know the funding code or name of the fund?",
  "Is this purchase supporting a Capstone Project, Honors Research Project, or Student Independent Research Project?",
  "If you answered anything but no, please give the sponsoring dept, project, and Student name"
]

/-! ## Data model: submissions -/

/-- The value of `itemResponse.getResponse()`: `null`/`undefined`,
a string, or an array of strings (checkbox answers, or file ids for a
file-upload question). -/
inductive Answer
  | absent
  | text (s : String)
  | arr (xs : List String)
deriving DecidableEq, Repr

/-- One `ItemResponse`: its question title, whether the item's type is
`FormApp.ItemType.FILE_UPLOAD`, and its answer. -/
structure ItemResponse where
  title : String
  isFileUpload : Bool
  answer : Answer
deriving DecidableEq, Repr

/-! ## Folder naming (lines 153-170): `buildFolderName` -/

/-- The map step of lines 161-164:
`const answer = response.getResponse() ?? '';`
`return Array.isArray(answer) ? answer.join(", ") : answer.toString().trim();`
Note that only the non-array branch trims. -/
def flattenAnswer : Answer → String
  | Answer.absent => jsTrim ""
  | Answer.text s => jsTrim s
  | Answer.arr xs => String.intercalate ", " xs

/-- Lines 153-170: `buildFolderName(itemResponses, timestamp)`. -/
def buildFolderName (itemResponses : List ItemResponse) (timestamp : String) : String :=
  let parts :=
    ((itemResponses.filter (fun response =>
        !response.isFileUpload && !(EXCLUDE_FROM_FOLDER_NAME.contains response.title)))
      |>.map (fun response => flattenAnswer response.answer))
      |>.filter (fun part => part != "")
  timestamp ++ "_PENDING_" ++ String.intercalate "_" parts

/-! ## Response map (lines 110-115) -/

/-- The flattening used when building the response map (line 113):
`Array.isArray(answer) ? answer.join(", ") : answer.toString()` — no trim. -/
def flattenForMap : Answer → String
  | Answer.absent => ""
  | Answer.text s => s
  | Answer.arr xs => String.intercalate ", " xs

/-- JavaScript property assignment `map[title] = value` on an object
modelled as an association list: replace an existing binding in place,
else append. -/
def setKey (m : List (String × String)) (k v : String) : List (String × String) :=
  if m.any (fun p => p.1 == k) then
    m.map (fun p => if p.1 == k then (k, v) else p)
  else
    m ++ [(k, v)]

/-- Lines 110-115: the `reduce` that builds the response map
(question title → flattened answer, last write wins). -/
def buildResponseMap (itemResponses : List ItemResponse) : List (String × String) :=
  itemResponses.foldl (fun map response =>
    setKey map response.title (flattenForMap response.answer)) []

/-! ## File routing (lines 198-258): `processAndRenameFiles` -/

/-- Lines 224-227: the stripped original base name of the special branch.
`separatorIndex = originalName.lastIndexOf(' - ')`; if found, the part
before it, else the part before `lastIndexOf('.')` (which is the empty
string when there is no dot, since `substring` clamps `-1` to `0`). -/
def strippedBaseName (originalName : String) : String :=
  let separatorIndex := lastIndexOfStr originalName.data [' ', '-', ' ']
  if separatorIndex ≠ -1 then
    ⟨jsSubstring0 originalName.data separatorIndex⟩
  else
    ⟨jsSubstring0 originalName.data (lastIndexOfStr originalName.data ['.'])⟩

/-- Lines 213-243: the new file name computed for one file, given the
title of its upload question, the response map, how many files were
uploaded to the question (`fileIds.length`), the file's 0-based upload
index, and the file's original name. -/
def computeNewFileName (questionTitle : String) (responseMap : List (String × String))
    (numFiles : Nat) (index : Nat) (originalName : String) : String :=
  let extension := fileExtension originalName
  if questionTitle == SPECIAL_NAMING_QUESTION_TITLE then
    let pfx := buildFromTemplate FILE_NAME_PREFIX_TEMPLATE responseMap
    let sanitizedPfx := sanitize pfx
    sanitizedPfx ++ " - " ++ strippedBaseName originalName ++ extension
  else
    let baseFileName :=
      buildFromTemplate FILE_NAME_TEMPLATE responseMap [("QuestionTitle", questionTitle)]
    let sanitizedBaseName := sanitize baseFileName
    let numbered :=
      if numFiles > 1 then
        sanitizedBaseName ++ " (" ++ toString (index + 1) ++ ")"
      else sanitizedBaseName
    numbered ++ extension

/-- The outcome of processing one uploaded file: either it was renamed and
moved (`Moved originalName finalName`), or an exception was caught by the
per-file handler of lines 251-254 (`Failed fileId`). -/
inductive RouteOutcome
  | Moved (originalName finalName : String)
  | Failed (fileId : String)
deriving DecidableEq, Repr

/-- The Drive collaborator as seen by `processAndRenameFiles`:
which file ids resolve to a file (and its name), and which ids make
`setName` or `moveTo` throw. -/
structure DriveEnv where
  fileNames : List (String × String)
  renameFailIds : List String
  moveFailIds : List String

/-- Lines 209-255: the body of the per-file loop, with its `try`/`catch`.
`DriveApp.getFileById` throwing is modelled by a missing entry in
`fileNames`; a thrown `setName`/`moveTo` by membership in the fail lists.
Any of the three yields `Failed` (the catch logs and moves on). -/
def processOneFile (env : DriveEnv) (responseMap : List (String × String))
    (questionTitle : String) (numFiles : Nat) (index : Nat) (fileId : String) :
    RouteOutcome :=
  match env.fileNames.lookup fileId with
  | none => RouteOutcome.Failed fileId
  | some originalName =>
    let newFileName := computeNewFileName questionTitle responseMap numFiles index originalName
    if env.renameFailIds.contains fileId then RouteOutcome.Failed fileId
    else if env.moveFailIds.contains fileId then RouteOutcome.Failed fileId
    else RouteOutcome.Moved originalName newFileName

/-- Lines 204-256: processing of one file-upload question.
`fileIds.forEach((fileId, index) => ...)`, guarded by
`if (fileIds && fileIds.length > 0)`. -/
def processQuestion (env : DriveEnv) (responseMap : List (String × String))
    (questionTitle : String) (fileIds : List String) : List RouteOutcome :=
  if fileIds.length > 0 then
    fileIds.enum.map (fun p => processOneFile env responseMap questionTitle fileIds.length p.1 p.2)
  else []

/-- `getResponse()` of a file-upload item, as the list of file ids
(`null`/`undefined` contributes none; the platform invariant is that
file-upload answers are arrays). -/
def fileIdsOf : Answer → List String
  | Answer.arr xs => xs
  | _ => []

/-- Lines 198-258: `processAndRenameFiles`, returning the per-file
outcomes in processing order. -/
def processAndRenameFiles (env : DriveEnv) (itemResponses : List ItemResponse)
    (responseMap : List (String × String)) : List RouteOutcome :=
  ((itemResponses.filter (fun r => r.isFileUpload)).map (fun r =>
      processQuestion env responseMap r.title (fileIdsOf r.answer))).flatten

/-! ## Notification email (lines 266-311) -/

/-- Lines 303-311: `escapeHtml`, a chain of five global character
replacements applied in order (`&`, `<`, `>`, `"`, `'`). -/
def replaceAllChar (s : List Char) (c : Char) (r : List Char) : List Char :=
  (s.map (fun x => if x = c then r else [x])).flatten

def escapeHtml (text : String) : String :=
  ⟨replaceAllChar
    (replaceAllChar
      (replaceAllChar
        (replaceAllChar
          (replaceAllChar text.data '&' "&amp;".data)
          '<' "&lt;".data)
        '>' "&gt;".data)
      '"' "&quot;".data)
    '\x27' "&#039;".data⟩

/-- Lines 274-284: the HTML fragment one item contributes to the email
body (empty for file uploads and excluded titles).
`const answer = itemResponse.getResponse() ?? '<em>No response provided</em>';`
then `Array.isArray(answer) ? escapeHtml(answer.join(", ")) : escapeHtml(String(answer))`. -/
def emailFragment (r : ItemResponse) : String :=
  if !r.isFileUpload && !(EXCLUDE_FROM_EMAIL_BODY.contains r.title) then
    let formattedAnswer :=
      match r.answer with
      | Answer.absent => escapeHtml "<em>No response provided</em>"
      | Answer.text s => escapeHtml s
      | Answer.arr xs => escapeHtml (String.intercalate ", " xs)
    "<strong>" ++ escapeHtml r.title ++ ":</strong> " ++ formattedAnswer ++ "<br/><br/>"
  else ""

/-- Lines 268-285: the accumulated `emailBody`
(`let emailBody = ''` then `emailBody += fragment` per item). -/
def emailBody (itemResponses : List ItemResponse) : String :=
  itemResponses.foldl (fun body r => body ++ emailFragment r) ""

/-! ## Orchestrator (lines 101-144): `onFormSubmit` -/

/-- The externally visible operations performed by one run. -/
inductive Effect
  | folderCreated (name : String)
  | fileMoved (originalName finalName : String)
  | notificationSent (subject body : String)
  | adminAlert
deriving DecidableEq, Repr

/-- The collaborators of one run: the Drive environment for per-file
operations, plus whether `DriveApp.getFolderById`, `createFolder` or the
final `MailApp.sendEmail` throw. -/
structure RunEnv where
  drive : DriveEnv
  getParentFails : Bool
  createFolderFails : Bool
  sendMailFails : Bool

/-- Lines 101-144: `onFormSubmit`, as the list of effects of one run.
The whole `try` body runs up to the first throwing call; the `catch`
sends exactly one admin alert.  Per-file failures are absorbed inside
`processAndRenameFiles` and do not reach the catch. -/
def onFormSubmit (env : RunEnv) (itemResponses : List ItemResponse)
    (timestamp : String) : List Effect :=
  let responseMap := buildResponseMap itemResponses
  let folderName := buildFolderName itemResponses timestamp
  let emailSubject := buildFromTemplate EMAIL_SUBJECT_TEMPLATE responseMap
  if env.getParentFails || env.createFolderFails then
    [Effect.adminAlert]
  else
    let outcomes := processAndRenameFiles env.drive itemResponses responseMap
    let moveEffects := outcomes.filterMap (fun o =>
      match o with
      | RouteOutcome.Moved orig fin => some (Effect.fileMoved orig fin)
      | RouteOutcome.Failed _ => none)
    if env.sendMailFails then
      Effect.folderCreated folderName :: moveEffects ++ [Effect.adminAlert]
    else
      Effect.folderCreated folderName :: moveEffects
        ++ [Effect.notificationSent emailSubject (emailBody itemResponses)]

/-! ## Helper lemmas -/

theorem data_append (a b : String) : (a ++ b).data = a.data ++ b.data := rfl

theorem string_append_assoc (a b c : String) : (a ++ b) ++ c = a ++ (b ++ c) := by
  apply String.ext
  simp [data_append]

/-- A single-character pattern cannot occur in a list that does not contain
the character. -/
theorem occursAt_single_false {s : List Char} {c : Char} (h : c ∉ s) (j : Nat) :
    occursAt s [c] j = false := by
  unfold occursAt
  rw [Bool.eq_false_iff]
  intro hb
  have heq : (s.drop j).take 1 = [c] := eq_of_beq hb
  have h1 : c ∈ (s.drop j).take 1 := heq ▸ List.mem_cons_self c []
  exact h (List.mem_of_mem_drop (List.mem_of_mem_take h1))

theorem filter_range_getLast?_none {p : Nat → Bool} {n : Nat}
    (h : ∀ j, j < n → p j = false) :
    ((List.range n).filter p).getLast? = none := by
  rw [List.getLast?_eq_none_iff, List.filter_eq_nil_iff]
  intro a ha
  simp [h a (List.mem_range.mp ha)]

theorem filter_range_getLast?_some {p : Nat → Bool} {n k : Nat}
    (hk : p k = true) (hkn : k < n) (hmax : ∀ j, k < j → j < n → p j = false) :
    ((List.range n).filter p).getLast? = some k := by
  induction n with
  | zero => omega
  | succ m ih =>
    rw [List.range_succ, List.filter_append]
    by_cases hkm : k = m
    · subst hkm
      simp only [List.filter_cons, List.filter_nil, hk, if_pos]
      exact List.getLast?_concat _
    · have hpm : p m = false := hmax m (by omega) (by omega)
      simp only [List.filter_cons, List.filter_nil, hpm]
      simp only [Bool.false_eq_true, if_false, List.append_nil]
      exact ih (by omega) (fun j h1 h2 => hmax j h1 (by omega))

/-- If `pat` is nonempty and occurs at `k`, then `k` is inside `s`. -/
theorem occursAt_lt_of_true {s pat : List Char} {k : Nat} (hpat : pat ≠ [])
    (hk : occursAt s pat k = true) : k < s.length := by
  by_contra hge
  push_neg at hge
  have hdrop : s.drop k = [] := List.drop_eq_nil_of_le hge
  unfold occursAt at hk
  rw [hdrop] at hk
  simp at hk
  exact hpat hk

theorem occursAt_false_of_ge {s pat : List Char} {k : Nat} (hpat : pat ≠ [])
    (hge : s.length ≤ k) : occursAt s pat k = false := by
  rw [Bool.eq_false_iff]
  intro hk
  exact absurd (occursAt_lt_of_true hpat hk) (by omega)

/-- `lastIndexOfStr` returns `-1` exactly when the (nonempty) pattern
never occurs. -/
theorem lastIndexOfStr_eq_neg_one {s pat : List Char} (hpat : pat ≠ [])
    (h : ∀ j, j < s.length → occursAt s pat j = false) :
    lastIndexOfStr s pat = -1 := by
  unfold lastIndexOfStr
  rw [filter_range_getLast?_none (fun j hj => ?_)]
  by_cases hlt : j < s.length
  · exact h j hlt
  · exact occursAt_false_of_ge hpat (by omega)

/-- `lastIndexOfStr` returns the last position at which the (nonempty)
pattern occurs. -/
theorem lastIndexOfStr_eq_of_last {s pat : List Char} {k : Nat} (hpat : pat ≠ [])
    (hk : occursAt s pat k = true)
    (hmax : ∀ j, k < j → j < s.length → occursAt s pat j = false) :
    lastIndexOfStr s pat = (k : Int) := by
  unfold lastIndexOfStr
  rw [filter_range_getLast?_some hk (by have := occursAt_lt_of_true hpat hk; omega)
    (fun j h1 h2 => ?_)]
  by_cases hlt : j < s.length
  · exact hmax j h1 hlt
  · exact occursAt_false_of_ge hpat (by omega)

/-! ## C1: extension of a dot-less original filename -/

/-- C1 (counterexample): the claim says an original filename with no `.`
yields an empty extension and a final name carrying no text from the
original name.  In fact `lastIndexOf` returns `-1` and `slice(-1)` keeps
the last character: `"Report"` yields extension `"t"`, and the standard
branch produces a final name ending in that `"t"`. -/
theorem C1_counterexample :
    fileExtension "Report" = "t" ∧ ("t" : String) ≠ "" ∧
    computeNewFileName "Q" [] 1 0 "Report" = "N-A - N-A - N-A - Qt" := by
  refine ⟨by decide, by decide, ?_⟩
  simp [computeNewFileName, buildFromTemplate, substPlaceholders, splitAtClose,
    List.lookup, SPECIAL_NAMING_QUESTION_TITLE, FILE_NAME_TEMPLATE, sanitize,
    fileExtension, jsSlice, lastIndexOfStr, occursAt, isIllegalChar]
  decide

/-- C1 (amended): for an original filename with no `.` the computed
extension is the final character of the name (`slice(-1)`), hence empty
only for the empty name; no error is raised (the function is total). -/
theorem C1_amended_ext (s : String) (h : '.' ∉ s.data) :
    fileExtension s = ⟨s.data.drop (s.data.length - 1)⟩ := by
  unfold fileExtension
  rw [lastIndexOfStr_eq_neg_one (by simp) (fun j _ => occursAt_single_false h j)]
  unfold jsSlice
  rw [if_pos (by norm_num)]
  congr 2
  omega

theorem C1_amended_ext_witness :
    ('.' ∉ ("Report" : String).data) ∧
    fileExtension "Report" = ⟨("Report" : String).data.drop (("Report" : String).data.length - 1)⟩ :=
  ⟨by decide, C1_amended_ext "Report" (by decide)⟩

/-! ## C5: special-branch suffix stripping -/

/-- C5 (counterexample): the claim says that with no ` - ` separator the
fallback strips only the extension, so `"Report"` (no separator, no dot)
would keep its base `"Report"`.  In fact `substring(0, lastIndexOf('.'))`
clamps `-1` to `0` and yields the empty string. -/
theorem C5_counterexample :
    strippedBaseName "Report" = "" ∧ ("" : String) ≠ "Report" :=
  ⟨by decide, by decide⟩

/-- C5 (amended): the stripped base is the prefix before the last
occurrence of ` - `; with no separator it is the prefix before the last
`.`; with neither separator nor dot it is the empty string.  The two
examples of the claim hold as stated. -/
theorem C5_amended_stripping :
    (∀ s : String, ∀ k, occursAt s.data [' ', '-', ' '] k = true →
      (∀ j, k < j → j < s.data.length → occursAt s.data [' ', '-', ' '] j = false) →
      strippedBaseName s = ⟨s.data.take k⟩)
    ∧ (∀ s : String, ∀ k, (∀ j, j < s.data.length → occursAt s.data [' ', '-', ' '] j = false) →
      occursAt s.data ['.'] k = true →
      (∀ j, k < j → j < s.data.length → occursAt s.data ['.'] j = false) →
      strippedBaseName s = ⟨s.data.take k⟩)
    ∧ (∀ s : String, (∀ j, j < s.data.length → occursAt s.data [' ', '-', ' '] j = false) →
      (∀ j, j < s.data.length → occursAt s.data ['.'] j = false) →
      strippedBaseName s = "")
    ∧ strippedBaseName "Report - Jane Doe.pdf" = "Report"
    ∧ strippedBaseName "Report.pdf" = "Report" := by
  refine ⟨?_, ?_, ?_, by decide, by decide⟩
  · intro s k hk hmax
    unfold strippedBaseName
    rw [lastIndexOfStr_eq_of_last (by simp) hk hmax]
    rw [if_pos (by omega)]
    unfold jsSubstring0
    congr 2
    omega
  · intro s k hsep hk hmax
    unfold strippedBaseName
    rw [lastIndexOfStr_eq_neg_one (by simp) hsep]
    rw [if_neg (by omega)]
    rw [lastIndexOfStr_eq_of_last (by simp) hk hmax]
    unfold jsSubstring0
    congr 2
    omega
  · intro s hsep hdot
    unfold strippedBaseName
    rw [lastIndexOfStr_eq_neg_one (by simp) hsep]
    rw [if_neg (by omega)]
    rw [lastIndexOfStr_eq_neg_one (by simp) hdot]
    unfold jsSubstring0
    simp

theorem C5_amended_stripping_witness :
    occursAt ("Report - Jane Doe.pdf" : String).data [' ', '-', ' '] 6 = true ∧
    strippedBaseName "Report - Jane Doe.pdf" = ⟨("Report - Jane Doe.pdf" : String).data.take 6⟩ :=
  ⟨by decide,
    C5_amended_stripping.1 "Report - Jane Doe.pdf" 6 (by decide)
      (fun j h1 h2 =>
        (by decide : ∀ j, j < ("Report - Jane Doe.pdf" : String).data.length →
            6 < j → occursAt ("Report - Jane Doe.pdf" : String).data [' ', '-', ' '] j = false)
          j h2 h1)⟩

/-! ## C4: sanitization -/

/-- C4 (counterexample): the claim says no occurrence of the nine illegal
characters remains in any generated name; but the extension is appended
verbatim after sanitization, so an original name `"a.|"` puts a `|` into
the standard-branch final name. -/
theorem C4_counterexample :
    computeNewFileName "Q" [] 1 0 "a.|" = "N-A - N-A - N-A - Q.|" ∧
    '|' ∈ ("N-A - N-A - N-A - Q.|" : String).data ∧
    isIllegalChar '|' = true := by
  refine ⟨?_, by decide, by decide⟩
  simp [computeNewFileName, buildFromTemplate, substPlaceholders, splitAtClose,
    List.lookup, SPECIAL_NAMING_QUESTION_TITLE, FILE_NAME_TEMPLATE, sanitize,
    fileExtension, jsSlice, lastIndexOfStr, occursAt, isIllegalChar]
  decide

/-- C4 (amended): sanitization is idempotent and its output is free of
the nine illegal characters; in a generated name only the template-derived
portion is sanitized, while the extension (and, in the special branch, the
stripped original base name) is appended verbatim and may retain illegal
characters. -/
theorem C4_amended_sanitize (s : String) :
    sanitize (sanitize s) = sanitize s ∧
    ∀ c ∈ (sanitize s).data, isIllegalChar c = false := by
  constructor
  · apply String.ext
    show (s.data.map _).map _ = s.data.map _
    rw [List.map_map]
    apply List.map_congr_left
    intro a _
    by_cases h : isIllegalChar a
    · simp [h, Function.comp]
    · simp [h, Function.comp]
  · intro c hc
    have hc' : c ∈ s.data.map (fun c => if isIllegalChar c then '-' else c) := hc
    rcases List.mem_map.mp hc' with ⟨a, _, ha⟩
    by_cases h : isIllegalChar a
    · rw [if_pos h] at ha
      rw [← ha]
      decide
    · rw [if_neg h] at ha
      rw [← ha]
      exact Bool.eq_false_iff.mpr h

theorem C4_amended_sanitize_witness :
    sanitize (sanitize "a|b") = sanitize "a|b" ∧ isIllegalChar '-' = false :=
  ⟨(C4_amended_sanitize "a|b").1,
    (C4_amended_sanitize "a|b").2 '-' (by decide)⟩

/-! ## Template-engine lemmas -/

theorem splitAtClose_no_close {cs : List Char} (h : '}' ∉ cs) :
    splitAtClose cs = none := by
  induction cs with
  | nil => rfl
  | cons c cs ih =>
    simp only [List.mem_cons, not_or] at h
    unfold splitAtClose
    rw [if_neg (fun hc => h.1 hc.symm), ih h.2]

theorem splitAtClose_append {x rest : List Char} (hx : '}' ∉ x) :
    splitAtClose (x ++ '}' :: rest) = some (x, rest) := by
  induction x with
  | nil => simp [splitAtClose]
  | cons c cs ih =>
    simp only [List.mem_cons, not_or] at hx
    simp only [List.cons_append]
    unfold splitAtClose
    rw [if_neg (fun hc => hx.1 hc.symm), ih hx.2]

theorem substPlaceholders_cons_token (lookup : String → Option String) {x rest : List Char}
    (hx : x ≠ []) (hc : '}' ∉ x) :
    substPlaceholders lookup ('{' :: (x ++ '}' :: rest)) =
      ((lookup ⟨x⟩).getD "N/A").data ++ substPlaceholders lookup rest := by
  rw [substPlaceholders, if_pos rfl]
  split
  · rename_i inner rest' heq
    rw [splitAtClose_append hc] at heq
    cases heq
    rw [if_neg hx]
  · rename_i heq
    rw [splitAtClose_append hc] at heq
    simp at heq

theorem substPlaceholders_no_close (lookup : String → Option String) {t : List Char}
    (h : '}' ∉ t) : substPlaceholders lookup t = t := by
  induction t with
  | nil => simp [substPlaceholders]
  | cons c cs ih =>
    simp only [List.mem_cons, not_or] at h
    by_cases hc : c = '{'
    · subst hc
      rw [substPlaceholders, if_pos rfl]
      split
      · rename_i inner rest' heq
        rw [splitAtClose_no_close h.2] at heq
        simp at heq
      · rw [ih h.2]
    · rw [substPlaceholders, if_neg hc, ih h.2]

/-- Resolution of one well-formed token at the head of the template. -/
theorem buildFromTemplate_token (base ovr : List (String × String)) (x rest : String)
    (hx : x ≠ "") (hc : '}' ∉ x.data) :
    buildFromTemplate ("\x7b" ++ x ++ "\x7d" ++ rest) base ovr =
      (((ovr.lookup x).orElse (fun _ => base.lookup x)).getD "N/A") ++
        buildFromTemplate rest base ovr := by
  have hxl : x.data ≠ [] := fun he => hx (String.ext he)
  apply String.ext
  show substPlaceholders _ (("\x7b" ++ x ++ "\x7d" ++ rest).data) = _
  have hdata : ("\x7b" ++ x ++ "\x7d" ++ rest).data = '{' :: (x.data ++ '}' :: rest.data) := by
    simp [data_append]
  rw [hdata, substPlaceholders_cons_token _ hxl hc]
  rfl

/-- A template without a closing brace is returned verbatim. -/
theorem buildFromTemplate_no_close (base ovr : List (String × String)) (t : String)
    (h : '}' ∉ t.data) : buildFromTemplate t base ovr = t :=
  String.ext (substPlaceholders_no_close _ h)

/-! ## C3: template resolution -/

/-- C3 (confirmed): a well-formed token `\x7bX\x7d` (X nonempty, without
`\x7d`) resolves to `overrides[X]` when present, else to `base[X]` when
present, else to the literal `N/A`, and scanning resumes after the token
(the substituted value, spliced in verbatim, is never re-scanned);
a template without any closing brace — in particular one whose braces are
unterminated — is returned verbatim. -/
theorem C3_template_resolution (base ovr : List (String × String)) (x rest : String)
    (hx : x ≠ "") (hc : '}' ∉ x.data) :
    (∀ v, ovr.lookup x = some v →
      buildFromTemplate ("\x7b" ++ x ++ "\x7d" ++ rest) base ovr =
        v ++ buildFromTemplate rest base ovr)
    ∧ (ovr.lookup x = none → ∀ v, base.lookup x = some v →
      buildFromTemplate ("\x7b" ++ x ++ "\x7d" ++ rest) base ovr =
        v ++ buildFromTemplate rest base ovr)
    ∧ (ovr.lookup x = none → base.lookup x = none →
      buildFromTemplate ("\x7b" ++ x ++ "\x7d" ++ rest) base ovr =
        "N/A" ++ buildFromTemplate rest base ovr)
    ∧ (∀ t : String, '}' ∉ t.data → buildFromTemplate t base ovr = t) := by
  refine ⟨?_, ?_, ?_, buildFromTemplate_no_close base ovr⟩
  · intro v hv
    rw [buildFromTemplate_token base ovr x rest hx hc, hv]
    rfl
  · intro ho v hv
    rw [buildFromTemplate_token base ovr x rest hx hc, ho, hv]
    rfl
  · intro ho hb
    rw [buildFromTemplate_token base ovr x rest hx hc, ho, hb]
    rfl

theorem C3_template_resolution_witness :
    (("A" : String) ≠ "") ∧
    buildFromTemplate ("\x7b" ++ "A" ++ "\x7d" ++ " tail") [("A", "base")] [("A", "ovr")] =
      "ovr" ++ buildFromTemplate " tail" [("A", "base")] [("A", "ovr")] :=
  ⟨by decide,
    (C3_template_resolution [("A", "base")] [("A", "ovr")] "A" " tail"
      (by decide) (by decide)).1 "ovr" (by decide)⟩

/-! ## C9: malformed and unmatched tokens -/

/-- C9 (counterexample): the claim says a malformed (unterminated) token
resolves to `N/A`; in fact the unterminated `\x7babc` is left verbatim in
the output and no `N/A` is produced. -/
theorem C9_counterexample :
    buildFromTemplate "\x7babc" [] [] = "\x7babc" ∧
    buildFromTemplate "\x7babc" [] [] ≠ "N/A" := by
  have h : buildFromTemplate "\x7babc" [] [] = "\x7babc" := by
    simp [buildFromTemplate, substPlaceholders, splitAtClose]
  exact ⟨h, by rw [h]; decide⟩

/-- C9 (amended): a well-formed but unmatched token resolves to the fixed
sentinel `N/A` — which is not the empty string — and never to an error
(resolution is total); a malformed (unterminated) token does not resolve
at all: it is left verbatim in the output. -/
theorem C9_unmatched_token (base ovr : List (String × String)) (x rest : String)
    (hx : x ≠ "") (hc : '}' ∉ x.data)
    (h1 : ovr.lookup x = none) (h2 : base.lookup x = none) :
    buildFromTemplate ("\x7b" ++ x ++ "\x7d" ++ rest) base ovr =
      "N/A" ++ buildFromTemplate rest base ovr
    ∧ ("N/A" : String) ≠ ""
    ∧ (∀ t : String, '}' ∉ t.data → buildFromTemplate t base ovr = t) := by
  refine ⟨?_, by decide, buildFromTemplate_no_close base ovr⟩
  rw [buildFromTemplate_token base ovr x rest hx hc, h1, h2]
  rfl

theorem C9_unmatched_token_witness :
    buildFromTemplate ("\x7b" ++ "Missing" ++ "\x7d" ++ "!") [] [] =
      "N/A" ++ buildFromTemplate "!" [] [] :=
  (C9_unmatched_token [] [] "Missing" "!" (by decide) (by decide)
    (by decide) (by decide)).1

/-! ## C7: folder-name composition -/

/-- C7 (counterexample): the claim says each remaining answer is flattened
to a trimmed string; but list answers are joined with `", "` untrimmed
(only scalar answers are trimmed), so an answered checkbox question whose
join is whitespace survives: the part `" "` is neither trimmed nor dropped
and the folder name ends in `"_ "` instead of `"_"`. -/
theorem C7_counterexample :
    buildFolderName [⟨"Vendor", false, Answer.arr [" "]⟩] "T" = "T_PENDING_ " ∧
    ("T_PENDING_ " : String) ≠ "T" ++ "_PENDING_" :=
  ⟨by decide, by decide⟩

/-- C7 (amended): folder-name composition excludes file-upload items and
items with configured excluded titles (and items whose flattened part is
the empty string); scalar answers are trimmed but list answers are joined
with `", "` verbatim, so only parts that are literally empty — not parts
that are merely whitespace — are dropped; the result always begins with
`timestamp ++ "_PENDING_"`. -/
theorem C7_amended :
    (∀ (items : List ItemResponse) (ts : String),
      ∃ rest, buildFolderName items ts = ts ++ "_PENDING_" ++ rest)
    ∧ (∀ (items₁ items₂ : List ItemResponse) (r : ItemResponse) (ts : String),
      (r.isFileUpload = true ∨ EXCLUDE_FROM_FOLDER_NAME.contains r.title = true ∨
        flattenAnswer r.answer = "") →
      buildFolderName (items₁ ++ r :: items₂) ts = buildFolderName (items₁ ++ items₂) ts)
    ∧ (∀ s, flattenAnswer (Answer.text s) = jsTrim s)
    ∧ (∀ xs, flattenAnswer (Answer.arr xs) = String.intercalate ", " xs) := by
  refine ⟨fun items ts => ⟨_, rfl⟩, ?_, fun s => rfl, fun xs => rfl⟩
  intro items₁ items₂ r ts h
  unfold buildFolderName
  simp only [List.filter_append, List.map_append, List.filter_cons]
  rcases h with h | h | h
  · simp [h]
  · have hmem : r.title ∈ EXCLUDE_FROM_FOLDER_NAME := by simpa using h
    simp [hmem]
  · by_cases hq : r.isFileUpload = false ∧ r.title ∉ EXCLUDE_FROM_FOLDER_NAME
    · simp [hq, h]
    · simp [hq]

theorem C7_amended_witness :
    buildFolderName ([] ++ (⟨"Q", true, Answer.arr ["id"]⟩ : ItemResponse) :: []) "T" =
      buildFolderName ([] ++ []) "T" :=
  C7_amended.2.1 [] [] ⟨"Q", true, Answer.arr ["id"]⟩ "T" (Or.inl rfl)

/-! ## Routing lemmas -/

theorem processQuestion_length (env : DriveEnv) (rm : List (String × String))
    (title : String) (fileIds : List String) :
    (processQuestion env rm title fileIds).length = fileIds.length := by
  unfold processQuestion
  by_cases h : fileIds.length > 0
  · rw [if_pos h, List.length_map, List.enum_length]
  · rw [if_neg h]
    simp only [List.length_nil]
    omega

theorem processQuestion_getElem? (env : DriveEnv) (rm : List (String × String))
    (title : String) (fileIds : List String) (i : Nat) (fid : String)
    (h : fileIds[i]? = some fid) :
    (processQuestion env rm title fileIds)[i]? =
      some (processOneFile env rm title fileIds.length i fid) := by
  rcases List.getElem?_eq_some.mp h with ⟨hi, _⟩
  unfold processQuestion
  rw [if_pos (by omega), List.getElem?_map, List.getElem?_enum, h]
  rfl

theorem processOneFile_congr (env₁ env₂ : DriveEnv) (rm : List (String × String))
    (title : String) (n i : Nat) (fid : String)
    (h1 : env₁.fileNames.lookup fid = env₂.fileNames.lookup fid)
    (h2 : env₁.renameFailIds.contains fid = env₂.renameFailIds.contains fid)
    (h3 : env₁.moveFailIds.contains fid = env₂.moveFailIds.contains fid) :
    processOneFile env₁ rm title n i fid = processOneFile env₂ rm title n i fid := by
  unfold processOneFile
  rw [h1, h2, h3]

/-! ## C2: per-file failure isolation -/

/-- C2 (confirmed): the try/catch of the per-file loop confines a failure
(file lookup, rename or move) to that file.  If two Drive environments
agree on every file id except one, the outcome at every other position is
identical — so one file failing leaves the others' outcomes unaffected —
the failing file's own outcome is `Failed`, and the run always completes:
every question yields a full-length outcome list and the whole routing
pass yields one outcome per uploaded file. -/
theorem C2_per_file_isolation (env₁ env₂ : DriveEnv) (rm : List (String × String))
    (title badId : String) (fileIds : List String)
    (hagree : ∀ fid, fid ≠ badId →
      env₁.fileNames.lookup fid = env₂.fileNames.lookup fid ∧
      env₁.renameFailIds.contains fid = env₂.renameFailIds.contains fid ∧
      env₁.moveFailIds.contains fid = env₂.moveFailIds.contains fid) :
    (processQuestion env₁ rm title fileIds).length = fileIds.length ∧
    (processQuestion env₂ rm title fileIds).length = fileIds.length ∧
    (∀ (i : Nat) (fid : String), fileIds[i]? = some fid → fid ≠ badId →
      (processQuestion env₁ rm title fileIds)[i]? =
        (processQuestion env₂ rm title fileIds)[i]?) ∧
    (∀ (i : Nat), fileIds[i]? = some badId → env₂.fileNames.lookup badId = none →
      (processQuestion env₂ rm title fileIds)[i]? = some (RouteOutcome.Failed badId)) ∧
    (∀ (env : DriveEnv) (items : List ItemResponse) (rm2 : List (String × String)),
      (processAndRenameFiles env items rm2).length =
        (((items.filter (fun r => r.isFileUpload)).map
          (fun r => (fileIdsOf r.answer).length)).sum)) := by
  refine ⟨processQuestion_length env₁ rm title fileIds,
    processQuestion_length env₂ rm title fileIds, ?_, ?_, ?_⟩
  · intro i fid h hne
    rw [processQuestion_getElem? env₁ rm title fileIds i fid h,
      processQuestion_getElem? env₂ rm title fileIds i fid h]
    obtain ⟨h1, h2, h3⟩ := hagree fid hne
    rw [processOneFile_congr env₁ env₂ rm title fileIds.length i fid h1 h2 h3]
  · intro i h hnone
    rw [processQuestion_getElem? env₂ rm title fileIds i badId h]
    unfold processOneFile
    rw [hnone]
  · intro env items rm2
    unfold processAndRenameFiles
    rw [List.length_flatten, List.map_map]
    congr 1
    apply List.map_congr_left
    intro r _
    exact processQuestion_length env rm2 r.title (fileIdsOf r.answer)

theorem C2_per_file_isolation_witness :
    ((processQuestion ⟨[("a", "f1.pdf"), ("b", "f2.pdf"), ("c", "f3.pdf")], [], []⟩
        [] "Q" ["a", "b", "c"])[0]? =
      (processQuestion ⟨[("a", "f1.pdf"), ("c", "f3.pdf")], [], []⟩
        [] "Q" ["a", "b", "c"])[0]?) ∧
    ((processQuestion ⟨[("a", "f1.pdf"), ("c", "f3.pdf")], [], []⟩
        [] "Q" ["a", "b", "c"])[1]? = some (RouteOutcome.Failed "b")) := by
  have hagree : ∀ fid, fid ≠ "b" →
      (List.lookup fid [("a", "f1.pdf"), ("b", "f2.pdf"), ("c", "f3.pdf")] =
        List.lookup fid [("a", "f1.pdf"), ("c", "f3.pdf")]) ∧
      (([] : List String).contains fid = ([] : List String).contains fid) ∧
      (([] : List String).contains fid = ([] : List String).contains fid) := by
    intro fid hne
    have hb : (fid == ("b" : String)) = false := beq_eq_false_iff_ne.mpr hne
    exact ⟨by simp [List.lookup, hb], rfl, rfl⟩
  have T := C2_per_file_isolation
    ⟨[("a", "f1.pdf"), ("b", "f2.pdf"), ("c", "f3.pdf")], [], []⟩
    ⟨[("a", "f1.pdf"), ("c", "f3.pdf")], [], []⟩ [] "Q" "b" ["a", "b", "c"] hagree
  exact ⟨T.2.2.1 0 "a" (by decide) (by decide), T.2.2.2.1 1 (by decide) (by decide)⟩

/-! ## C6: disambiguation numbering -/

/-- C6 (confirmed): on a standard (non-special) question whose file is
found and whose rename and move succeed, a question with more than one
file gets the 1-based suffix `" (index+1)"` inserted before the extension
in upload order, and a single-file question gets no numeric suffix. -/
theorem C6_numbering (env : DriveEnv) (rm : List (String × String))
    (title : String) (fileIds : List String)
    (hstd : title ≠ SPECIAL_NAMING_QUESTION_TITLE) :
    (∀ (i : Nat) (fid orig : String), 1 < fileIds.length → fileIds[i]? = some fid →
      env.fileNames.lookup fid = some orig →
      env.renameFailIds.contains fid = false → env.moveFailIds.contains fid = false →
      (processQuestion env rm title fileIds)[i]? = some (RouteOutcome.Moved orig
        (sanitize (buildFromTemplate FILE_NAME_TEMPLATE rm [("QuestionTitle", title)])
          ++ " (" ++ toString (i + 1) ++ ")" ++ fileExtension orig)))
    ∧ (∀ fid orig, fileIds = [fid] →
      env.fileNames.lookup fid = some orig →
      env.renameFailIds.contains fid = false → env.moveFailIds.contains fid = false →
      processQuestion env rm title fileIds = [RouteOutcome.Moved orig
        (sanitize (buildFromTemplate FILE_NAME_TEMPLATE rm [("QuestionTitle", title)])
          ++ fileExtension orig)]) := by
  have hb : (title == SPECIAL_NAMING_QUESTION_TITLE) = false :=
    beq_eq_false_iff_ne.mpr hstd
  constructor
  · intro i fid orig hN h hlook hren hmov
    rw [processQuestion_getElem? env rm title fileIds i fid h]
    unfold processOneFile
    rw [hlook, hren, hmov]
    simp only [Bool.false_eq_true, if_false]
    unfold computeNewFileName
    rw [hb]
    simp only [Bool.false_eq_true, if_false]
    rw [if_pos hN]
  · intro fid orig hone hlook hren hmov
    subst hone
    unfold processQuestion
    rw [if_pos (by simp)]
    simp only [List.enum, List.enumFrom, List.map_cons, List.map_nil]
    unfold processOneFile
    rw [hlook, hren, hmov]
    simp only [Bool.false_eq_true, if_false]
    unfold computeNewFileName
    rw [hb]
    simp only [Bool.false_eq_true, if_false]
    rw [if_neg (by simp)]

theorem C6_numbering_witness :
    (processQuestion ⟨[("a", "q.pdf"), ("b", "r.pdf")], [], []⟩ [] "Q" ["a", "b"])[1]? =
      some (RouteOutcome.Moved "r.pdf"
        (sanitize (buildFromTemplate FILE_NAME_TEMPLATE [] [("QuestionTitle", "Q")])
          ++ " (" ++ toString (1 + 1) ++ ")" ++ fileExtension "r.pdf")) :=
  (C6_numbering ⟨[("a", "q.pdf"), ("b", "r.pdf")], [], []⟩ [] "Q" ["a", "b"]
    (by decide)).1 1 "b" "r.pdf" (by decide) (by decide) (by decide) (by decide) (by decide)

/-! ## C8: fatal path -/

/-- C8 (confirmed): an exception raised before the per-file boundary
(`getFolderById` or `createFolder` throwing) reaches the top-level catch:
the run's effects are exactly one administrative alert — no file is moved
and no submission notification is sent. -/
theorem C8_fatal_path (env : RunEnv) (items : List ItemResponse) (ts : String)
    (h : env.getParentFails = true ∨ env.createFolderFails = true) :
    onFormSubmit env items ts = [Effect.adminAlert] ∧
    (onFormSubmit env items ts).count Effect.adminAlert = 1 ∧
    (∀ o f, Effect.fileMoved o f ∉ onFormSubmit env items ts) ∧
    (∀ sub body, Effect.notificationSent sub body ∉ onFormSubmit env items ts) := by
  have hcond : (env.getParentFails || env.createFolderFails) = true := by
    rcases h with h | h <;> simp [h]
  have hmain : onFormSubmit env items ts = [Effect.adminAlert] := by
    unfold onFormSubmit
    rw [hcond]
    simp
  refine ⟨hmain, ?_, ?_, ?_⟩
  · rw [hmain]; rfl
  · intro o f; rw [hmain]; simp
  · intro sub body; rw [hmain]; simp

theorem C8_fatal_path_witness :
    onFormSubmit ⟨⟨[], [], []⟩, false, true, false⟩ [] "T" = [Effect.adminAlert] :=
  (C8_fatal_path ⟨⟨[], [], []⟩, false, true, false⟩ [] "T" (Or.inr rfl)).1

/-! ## C10: escaped fallback for absent answers -/

theorem string_append_empty (s : String) : s ++ "" = s :=
  String.ext (by simp [data_append])

theorem string_empty_append (s : String) : "" ++ s = s :=
  String.ext (by simp [data_append])

theorem emailBody_foldl_init (l : List ItemResponse) (init : String) :
    l.foldl (fun body r => body ++ emailFragment r) init =
      init ++ l.foldl (fun body r => body ++ emailFragment r) "" := by
  induction l generalizing init with
  | nil =>
    simp only [List.foldl_nil]
    rw [string_append_empty]
  | cons a l ih =>
    simp only [List.foldl_cons]
    rw [ih (init ++ emailFragment a), ih ("" ++ emailFragment a),
      string_empty_append, string_append_assoc]

theorem emailBody_append (a b : List ItemResponse) :
    emailBody (a ++ b) = emailBody a ++ emailBody b := by
  unfold emailBody
  rw [List.foldl_append, emailBody_foldl_init]

/-- C10 (confirmed): for a non-excluded, non-file item whose answer is
absent, the fallback string `<em>No response provided</em>` is itself
passed through `escapeHtml`, so the email body contains the escaped text
`&lt;em&gt;No response provided&lt;/em&gt;` (rendered as visible literal
text, not as markup). -/
theorem C10_absent_answer_escaped (items₁ items₂ : List ItemResponse) (r : ItemResponse)
    (h1 : r.isFileUpload = false)
    (h2 : EXCLUDE_FROM_EMAIL_BODY.contains r.title = false)
    (h3 : r.answer = Answer.absent) :
    ∃ s t : String, emailBody (items₁ ++ r :: items₂) =
      s ++ ("&lt;em&gt;No response provided&lt;/em&gt;" ++ t) := by
  refine ⟨emailBody items₁ ++ ("<strong>" ++ escapeHtml r.title ++ ":</strong> "),
    "<br/><br/>" ++ emailBody items₂, ?_⟩
  have hfrag : emailFragment r =
      "<strong>" ++ escapeHtml r.title ++ ":</strong> " ++
        (escapeHtml "<em>No response provided</em>" ++ "<br/><br/>") := by
    unfold emailFragment
    rw [h1, h2, h3]
    simp only [Bool.not_false, Bool.and_self, if_true]
    apply String.ext
    simp [data_append]
  have hesc : escapeHtml "<em>No response provided</em>" =
      "&lt;em&gt;No response provided&lt;/em&gt;" := by decide
  have hsplit : emailBody (items₁ ++ r :: items₂) =
      emailBody items₁ ++ (emailFragment r ++ emailBody items₂) := by
    rw [emailBody_append]
    congr 1
    show (r :: items₂).foldl (fun body r => body ++ emailFragment r) "" = _
    simp only [List.foldl_cons]
    rw [emailBody_foldl_init, string_empty_append]
    rfl
  rw [hsplit, hfrag, hesc]
  apply String.ext
  simp [data_append]

theorem C10_absent_answer_escaped_witness :
    ∃ s t : String,
      emailBody ([] ++ (⟨"Vendor", false, Answer.absent⟩ : ItemResponse) :: []) =
        s ++ ("&lt;em&gt;No response provided&lt;/em&gt;" ++ t) :=
  C10_absent_answer_escaped [] [] ⟨"Vendor", false, Answer.absent⟩ rfl (by decide) rfl

end FormScript
